import Mathlib

/-!
Verification of the graph-tensor operations module
(`tensorflow_gnn/graph/graph_tensor_ops.py`) and of spec-level properties of
the probability library (multitask Gaussian processes, Student-t process
regression models, gradient-based trajectory-length adaptation).

Graph features are modelled as lists of rationals (one entry per node/edge),
graph tensors as records of node sets, edge sets and a context, and the
mutable reduction registry as an association list threaded through the
operations.  Python exceptions are modelled with `Except`.
-/

namespace Gnn

/-- A dense feature: one rational value per node (or edge). -/
abbrev Field := List ℚ

/-- The errors raised by the graph-ops module.  `featureArgError` is the
`ValueError` raised by `resolve_value` when both or neither of
`feature_value`/`feature_name` are given; `unknownReduceType` is the
`ValueError` raised by `_resolve_reduce_op`; `keyError` is a Python
`KeyError` for a missing dictionary key; `reduceOpExists` is the
`ValueError` of `register_reduce_operation`; `nonPositiveSizes` is the
assertion error of `gather_first_node`; `unsupportedFeatureType` is the
`ValueError` of `_shuffle_features`. -/
inductive GnnError where
  | featureArgError
  | unknownReduceType (name : String)
  | keyError (name : String)
  | reduceOpExists
  | nonPositiveSizes
  | unsupportedFeatureType
deriving DecidableEq, Repr

/-- The incident-node tags `SOURCE` and `TARGET` of `graph_constants`. -/
inductive IncidentNodeTag where
  | source
  | target
deriving DecidableEq, Repr

/-- Adjacency of an edge set: for each tag, the name of the incident node set
and the rank-1 tensor of incident node indices (one per edge). -/
structure Adjacency where
  source_name : String
  target_name : String
  source_indices : List Nat
  target_indices : List Nat
deriving DecidableEq, Repr

/-- Model of `adjacency.node_set_name(node_tag)`. -/
def Adjacency.node_set_name (a : Adjacency) : IncidentNodeTag → String
  | .source => a.source_name
  | .target => a.target_name

/-- Model of `adjacency[node_tag]`: the incident node index of each edge. -/
def Adjacency.indices (a : Adjacency) : IncidentNodeTag → List Nat
  | .source => a.source_indices
  | .target => a.target_indices

/-- A node set of a scalar graph tensor: per-component sizes and named
features.  The feature payload type is a parameter so that the same graph
structure serves the dense-only operations and the shuffle operation. -/
structure NodeSet (α : Type) where
  sizes : List Nat
  features : List (String × α)

/-- An edge set: per-component sizes, adjacency and named features. -/
structure EdgeSet (α : Type) where
  sizes : List Nat
  adjacency : Adjacency
  features : List (String × α)

/-- The graph context: named features, one row per component. -/
structure Context (α : Type) where
  features : List (String × α)

/-- A scalar graph tensor. -/
structure GraphTensor (α : Type) where
  context : Context α
  node_sets : List (String × NodeSet α)
  edge_sets : List (String × EdgeSet α)

/-- Model of `node_set.total_size`: the total number of nodes. -/
def NodeSet.total_size (ns : NodeSet α) : Nat := ns.sizes.sum

/-- Model of `edge_set.total_size`: the total number of edges. -/
def EdgeSet.total_size (es : EdgeSet α) : Nat := es.sizes.sum

/-- Dictionary lookup `graph_tensor.node_sets[name]`, `KeyError` on miss. -/
def GraphTensor.getNodeSet (g : GraphTensor α) (name : String) :
    Except GnnError (NodeSet α) :=
  match List.lookup name g.node_sets with
  | some ns => .ok ns
  | none => .error (.keyError name)

/-- Dictionary lookup `graph_tensor.edge_sets[name]`, `KeyError` on miss. -/
def GraphTensor.getEdgeSet (g : GraphTensor α) (name : String) :
    Except GnnError (EdgeSet α) :=
  match List.lookup name g.edge_sets with
  | some es => .ok es
  | none => .error (.keyError name)

/-- Model of `tf.gather(v, idx)` for a rank-1 value and rank-1 indices. -/
def tf_gather (v : Field) (idx : List Nat) : Field :=
  idx.map (fun i => v.getD i 0)

/-- The values of `data` falling in segment `j` under `segment_ids`
(in order of appearance). -/
def segment_values (data : Field) (segment_ids : List Nat) (j : Nat) : Field :=
  ((data.zip segment_ids).filter (fun p => p.2 == j)).map Prod.fst

/-- The type of `tf.math.unsorted_segment_*` operations:
data, segment ids, number of segments. -/
abbrev UnsortedReduceOp := Field → List Nat → Nat → Field

/-- Model of `tf.math.unsorted_segment_sum`: entry `j` is the sum of the data values
with segment id `j`; ids outside `[0, num_segments)` are dropped. -/
def unsorted_segment_sum : UnsortedReduceOp := fun data ids n =>
  (List.range n).map (fun j => (segment_values data ids j).sum)

/-- Model of `tf.math.unsorted_segment_mean`.  (TF returns 0 for an empty segment.) -/
def unsorted_segment_mean : UnsortedReduceOp := fun data ids n =>
  (List.range n).map (fun j =>
    let s := segment_values data ids j
    if s.length = 0 then 0 else s.sum / (s.length : ℚ))

/-- Model of `tf.math.unsorted_segment_max`.  (For an empty segment TF returns the
dtype's lowest value, which has no counterpart in `ℚ`; no claim depends on
that case, and the model returns 0 there.) -/
def unsorted_segment_max : UnsortedReduceOp := fun data ids n =>
  (List.range n).map (fun j =>
    match segment_values data ids j with
    | [] => 0
    | x :: xs => xs.foldl max x)

/-- Model of `tf.math.unsorted_segment_min` (empty segments as for max). -/
def unsorted_segment_min : UnsortedReduceOp := fun data ids n =>
  (List.range n).map (fun j =>
    match segment_values data ids j with
    | [] => 0
    | x :: xs => xs.foldl min x)

/-- Model of `tf.math.unsorted_segment_prod`. -/
def unsorted_segment_prod : UnsortedReduceOp := fun data ids n =>
  (List.range n).map (fun j => (segment_values data ids j).prod)

/-- The reduction registry, a mutable mapping from reduction-type name to an
unsorted-segment-reduce operation, modelled as an association list threaded
through the operations. -/
abbrev Registry := List (String × UnsortedReduceOp)

/-- The load-time contents of `_REGISTERED_REDUCE_OPS`. -/
def _REGISTERED_REDUCE_OPS : Registry :=
  [("sum", unsorted_segment_sum),
   ("mean", unsorted_segment_mean),
   ("max", unsorted_segment_max),
   ("min", unsorted_segment_min),
   ("prod", unsorted_segment_prod)]

/-- Model of `get_registered_reduce_operation_names()`: the keys of the registry. -/
def get_registered_reduce_operation_names (r : Registry) : List String :=
  r.map Prod.fst

/-- Model of `reduce_type in _REGISTERED_REDUCE_OPS` (Python `in` on a dict). -/
def containsKey (r : Registry) (k : String) : Bool :=
  (List.lookup k r).isSome

/-- Python dict assignment `d[k] = v`: replaces the binding in place if the
key is present, otherwise appends it. -/
def setKey : Registry → String → UnsortedReduceOp → Registry
  | [], k, v => [(k, v)]
  | (k', v') :: rest, k, v =>
    if k' == k then (k, v) :: rest else (k', v') :: setKey rest k v

/-- Model of `register_reduce_operation(reduce_type, unsorted_reduce_op=op,
allow_override=...)`.  Raises `ValueError` when the name is registered and
`allow_override` is false (leaving the registry unchanged, because the raise
precedes the assignment); otherwise stores the op. -/
def register_reduce_operation (r : Registry) (reduce_type : String)
    (unsorted_reduce_op : UnsortedReduceOp) (allow_override : Bool) :
    Except GnnError Registry :=
  if !allow_override && containsKey r reduce_type then
    .error .reduceOpExists
  else
    .ok (setKey r reduce_type unsorted_reduce_op)

/-- Model of `_resolve_reduce_op(reduce_type)`: registry lookup, `ValueError` naming
the unknown reduce type on miss. -/
def _resolve_reduce_op (r : Registry) (reduce_type : String) :
    Except GnnError UnsortedReduceOp :=
  match List.lookup reduce_type r with
  | some op => .ok op
  | none => .error (.unknownReduceType reduce_type)

/-- Model of `resolve_value(values_map, feature_value=..., feature_name=...)`:
`ValueError` when both or neither argument is given; the explicit value when
given; otherwise the feature looked up by name (`KeyError` on a missing
name, as for a Python dict). -/
def resolve_value (values_map : List (String × α)) (feature_value : Option α)
    (feature_name : Option String) : Except GnnError α :=
  match feature_value, feature_name with
  | some _, some _ => .error .featureArgError
  | none, none => .error .featureArgError
  | some v, none => .ok v
  | none, some n =>
    match List.lookup n values_map with
    | some v => .ok v
    | none => .error (.keyError n)

/-- Model of `broadcast_node_to_edges(graph_tensor, edge_set_name, node_tag, ...)`:
gathers the incident node's value onto each edge. -/
def broadcast_node_to_edges (g : GraphTensor Field) (edge_set_name : String)
    (node_tag : IncidentNodeTag) (feature_value : Option Field)
    (feature_name : Option String) : Except GnnError Field :=
  match g.getEdgeSet edge_set_name with
  | .error e => .error e
  | .ok es =>
    match g.getNodeSet (es.adjacency.node_set_name node_tag) with
    | .error e => .error e
    | .ok ns =>
      match resolve_value ns.features feature_value feature_name with
      | .error e => .error e
      | .ok node_value =>
        .ok (tf_gather node_value (es.adjacency.indices node_tag))

/-- Model of `pool_edges_to_node(graph_tensor, edge_set_name, node_tag, reduce_type,
...)`: reduces edge values at the incident nodes with the registered
operation.  The reduce op is resolved before the feature arguments are
validated, as in the source. -/
def pool_edges_to_node (r : Registry) (g : GraphTensor Field)
    (edge_set_name : String) (node_tag : IncidentNodeTag)
    (reduce_type : String) (feature_value : Option Field)
    (feature_name : Option String) : Except GnnError Field :=
  match _resolve_reduce_op r reduce_type with
  | .error e => .error e
  | .ok unsorted_reduce_op =>
    match g.getEdgeSet edge_set_name with
    | .error e => .error e
    | .ok es =>
      match resolve_value es.features feature_value feature_name with
      | .error e => .error e
      | .ok edge_value =>
        match g.getNodeSet (es.adjacency.node_set_name node_tag) with
        | .error e => .error e
        | .ok ns =>
          .ok (unsorted_reduce_op edge_value
            (es.adjacency.indices node_tag) ns.total_size)

/-- Model of `utils.repeat(value, repeats)`: row `i` of `value` repeated
`repeats[i]` times. -/
def tf_repeat (value : Field) (repeats : List Nat) : Field :=
  ((value.zip repeats).map (fun p => List.replicate p.2 p.1)).flatten

/-- Model of `broadcast_context_to_nodes(graph_tensor, node_set_name, ...)`. -/
def broadcast_context_to_nodes (g : GraphTensor Field)
    (node_set_name : String) (feature_value : Option Field)
    (feature_name : Option String) : Except GnnError Field :=
  match g.getNodeSet node_set_name with
  | .error e => .error e
  | .ok ns =>
    match resolve_value g.context.features feature_value feature_name with
    | .error e => .error e
    | .ok context_value => .ok (tf_repeat context_value ns.sizes)

/-- Model of `broadcast_context_to_edges(graph_tensor, edge_set_name, ...)`. -/
def broadcast_context_to_edges (g : GraphTensor Field)
    (edge_set_name : String) (feature_value : Option Field)
    (feature_name : Option String) : Except GnnError Field :=
  match g.getEdgeSet edge_set_name with
  | .error e => .error e
  | .ok es =>
    match resolve_value g.context.features feature_value feature_name with
    | .error e => .error e
    | .ok context_value => .ok (tf_repeat context_value es.sizes)

/-- Model of `utils.row_lengths_to_row_ids(sizes)`: `sizes[i]` copies of `i`. -/
def row_lengths_to_row_ids (sizes : List Nat) : List Nat :=
  (((List.range sizes.length).zip sizes).map
    (fun p => List.replicate p.2 p.1)).flatten

/-- Model of `utils.outer_dimension_size(sizes)`: the number of components. -/
def outer_dimension_size (sizes : List Nat) : Nat := sizes.length

/-- Model of `pool_nodes_to_context(graph_tensor, node_set_name, reduce_type, ...)`.
In `_pool_to_context` the feature arguments are validated before the reduce
op is resolved, as in the source. -/
def pool_nodes_to_context (r : Registry) (g : GraphTensor Field)
    (node_set_name : String) (reduce_type : String)
    (feature_value : Option Field) (feature_name : Option String) :
    Except GnnError Field :=
  match g.getNodeSet node_set_name with
  | .error e => .error e
  | .ok ns =>
    match resolve_value ns.features feature_value feature_name with
    | .error e => .error e
    | .ok value =>
      match _resolve_reduce_op r reduce_type with
      | .error e => .error e
      | .ok unsorted_reduce_op =>
        .ok (unsorted_reduce_op value (row_lengths_to_row_ids ns.sizes)
          (outer_dimension_size ns.sizes))

/-- Model of `pool_edges_to_context(graph_tensor, edge_set_name, reduce_type, ...)`. -/
def pool_edges_to_context (r : Registry) (g : GraphTensor Field)
    (edge_set_name : String) (reduce_type : String)
    (feature_value : Option Field) (feature_name : Option String) :
    Except GnnError Field :=
  match g.getEdgeSet edge_set_name with
  | .error e => .error e
  | .ok es =>
    match resolve_value es.features feature_value feature_name with
    | .error e => .error e
    | .ok value =>
      match _resolve_reduce_op r reduce_type with
      | .error e => .error e
      | .ok unsorted_reduce_op =>
        .ok (unsorted_reduce_op value (row_lengths_to_row_ids es.sizes)
          (outer_dimension_size es.sizes))

/-- Model of `tf.math.cumsum(sizes, exclusive=True)`. -/
def exclusive_cumsum (l : List Nat) : List Nat :=
  (List.range l.length).map (fun i => (l.take i).sum)

/-- Model of `gather_first_node(graph_tensor, node_set_name, ...)`: the feature value
at the first node of each component; an assertion error when a component has
no nodes. -/
def gather_first_node (g : GraphTensor Field) (node_set_name : String)
    (feature_value : Option Field) (feature_name : Option String) :
    Except GnnError Field :=
  match g.getNodeSet node_set_name with
  | .error e => .error e
  | .ok ns =>
    match resolve_value ns.features feature_value feature_name with
    | .error e => .error e
    | .ok node_value =>
      if ns.sizes.all (fun s => decide (0 < s)) then
        .ok (tf_gather node_value (exclusive_cumsum ns.sizes))
      else
        .error .nonPositiveSizes

end Gnn

/-- Claim C2: at load time, before any call to `register_reduce_operation`, the
reduction registry contains exactly the five reduction-type names
`sum`, `mean`, `max`, `min`, `prod`, and
`get_registered_reduce_operation_names()` returns exactly these names. -/
theorem Gnn.initial_registry_names :
    Gnn.get_registered_reduce_operation_names Gnn._REGISTERED_REDUCE_OPS =
      ["sum", "mean", "max", "min", "prod"] ∧
    ∀ k : String, Gnn.containsKey Gnn._REGISTERED_REDUCE_OPS k = true ↔
      k ∈ ["sum", "mean", "max", "min", "prod"] := by
  refine ⟨rfl, fun k => ?_⟩
  simp only [Gnn.containsKey, Gnn._REGISTERED_REDUCE_OPS, List.lookup,
    Option.isSome, List.mem_cons, List.not_mem_nil, or_false]
  by_cases h1 : k = "sum" <;> by_cases h2 : k = "mean" <;>
    by_cases h3 : k = "max" <;> by_cases h4 : k = "min" <;>
    by_cases h5 : k = "prod" <;>
    simp_all [show ∀ a b : String, (a == b) = decide (a = b) from fun _ _ => rfl]

namespace Gnn

/-- Gathering `adj` through `f` and then grouping back by `adj` puts
`adj.count j` copies of `f j` into segment `j`. -/
theorem segment_values_map_self :
    ∀ (adj : List Nat) (f : Nat → ℚ) (j : Nat),
      segment_values (adj.map f) adj j = List.replicate (adj.count j) (f j)
  | [], _, _ => rfl
  | a :: l, f, j => by
    simp only [List.map_cons, segment_values, List.zip_cons_cons,
      List.filter_cons, List.count_cons]
    by_cases h : a = j
    · subst h
      have : ((f a, a).2 == a) = true := by simp
      rw [this]
      simp only [if_pos rfl, List.map_cons]
      have ih := segment_values_map_self l f a
      simp only [segment_values] at ih
      simp [ih, List.replicate_succ]
    · have hb : ((f a, a).2 == j) = false := by simp [h]
      rw [hb]
      have hb' : (j == a) = false := by
        simp [beq_iff_eq]
        exact fun e => h e.symm
      have ih := segment_values_map_self l f j
      simp only [segment_values] at ih
      simp [ih, hb']

/-- Reading a list back out of itself by indices `0, ..., length - 1`. -/
theorem map_getD_range {α : Type} (d : α) :
    ∀ (v : List α), (List.range v.length).map (fun j => v.getD j d) = v
  | [] => rfl
  | a :: v => by
    rw [List.length_cons, List.range_succ_eq_map, List.map_cons,
      List.map_map]
    have : ((fun j => (a :: v).getD j d) ∘ Nat.succ) =
        (fun j => v.getD j d) := by
      funext j
      simp
    rw [this, map_getD_range d v]
    simp

/-- Claim C1: for a scalar graph tensor, an edge set and a node tag whose incidence
is a bijection between the edges and the nodes of the incident node set (each
node has exactly one incident edge), pooling with `reduce_type='sum'` the
result of broadcasting a node feature to the edges returns the original node
feature. -/
theorem broadcast_pool_sum_roundtrip (g : GraphTensor Field)
    (edge_set_name : String) (node_tag : IncidentNodeTag)
    (es : EdgeSet Field) (ns : NodeSet Field) (v : Field)
    (hes : List.lookup edge_set_name g.edge_sets = some es)
    (hns : List.lookup (es.adjacency.node_set_name node_tag) g.node_sets =
      some ns)
    (hlen : v.length = ns.total_size)
    (hbij : ∀ j < ns.total_size,
      (es.adjacency.indices node_tag).count j = 1) :
    (broadcast_node_to_edges g edge_set_name node_tag (some v) none).bind
      (fun bv => pool_edges_to_node _REGISTERED_REDUCE_OPS g edge_set_name
        node_tag "sum" (some bv) none) = Except.ok v := by
  have hbr : broadcast_node_to_edges g edge_set_name node_tag (some v) none =
      Except.ok (tf_gather v (es.adjacency.indices node_tag)) := by
    simp [broadcast_node_to_edges, GraphTensor.getEdgeSet,
      GraphTensor.getNodeSet, hes, hns, resolve_value]
  rw [hbr]
  show pool_edges_to_node _REGISTERED_REDUCE_OPS g edge_set_name node_tag
      "sum" (some (tf_gather v (es.adjacency.indices node_tag))) none =
    Except.ok v
  have hop : _resolve_reduce_op _REGISTERED_REDUCE_OPS "sum" =
      Except.ok unsorted_segment_sum := rfl
  simp only [pool_edges_to_node, hop, GraphTensor.getEdgeSet,
    GraphTensor.getNodeSet, hes, hns, resolve_value, Except.ok.injEq]
  set adj := es.adjacency.indices node_tag with hadj
  have key : unsorted_segment_sum (tf_gather v adj) adj ns.total_size = v := by
    have : tf_gather v adj = adj.map (fun i => v.getD i 0) := rfl
    rw [this]
    show (List.range ns.total_size).map
        (fun j => (segment_values (adj.map (fun i => v.getD i 0)) adj j).sum) =
      v
    have step : ∀ j ∈ List.range ns.total_size,
        (segment_values (adj.map (fun i => v.getD i 0)) adj j).sum =
          v.getD j 0 := by
      intro j hj
      rw [segment_values_map_self adj (fun i => v.getD i 0) j]
      rw [hbij j (List.mem_range.mp hj)]
      simp
    rw [List.map_congr_left step]
    rw [← hlen]
    exact map_getD_range 0 v
  rw [key]

end Gnn

/-- Witness adjacency for C1: the source incidence `[1, 0]` is a bijection
between the two edges and the two nodes. -/
def Gnn.wAdjC1 : Gnn.Adjacency := ⟨"nodes", "nodes", [1, 0], [0, 1]⟩

/-- Witness node set for C1. -/
def Gnn.wNodesC1 : Gnn.NodeSet Gnn.Field := ⟨[2], []⟩

/-- Witness edge set for C1. -/
def Gnn.wEdgesC1 : Gnn.EdgeSet Gnn.Field := ⟨[2], Gnn.wAdjC1, []⟩

/-- Witness graph for C1: two nodes, two edges. -/
def Gnn.wGraphC1 : Gnn.GraphTensor Gnn.Field :=
  ⟨⟨[]⟩, [("nodes", Gnn.wNodesC1)], [("edges", Gnn.wEdgesC1)]⟩

/-- Witness for C1 at a concrete graph and feature. -/
theorem Gnn.broadcast_pool_sum_roundtrip_witness :
    (Gnn.broadcast_node_to_edges Gnn.wGraphC1 "edges" .source
        (some [3, 5]) none).bind
      (fun bv => Gnn.pool_edges_to_node Gnn._REGISTERED_REDUCE_OPS
        Gnn.wGraphC1 "edges" .source "sum" (some bv) none) =
      Except.ok [3, 5] :=
  Gnn.broadcast_pool_sum_roundtrip Gnn.wGraphC1 "edges" .source
    Gnn.wEdgesC1 Gnn.wNodesC1 [3, 5] rfl rfl rfl (by decide)

namespace Gnn

/-- Lookup of the key just stored by a Python dict assignment. -/
theorem setKey_lookup_self :
    ∀ (r : Registry) (k : String) (op : UnsortedReduceOp),
      List.lookup k (setKey r k op) = some op
  | [], k, op => by simp [setKey, List.lookup]
  | (k0, v0) :: rest, k, op => by
    by_cases h : k0 = k
    · simp [setKey, h, List.lookup]
    · have hb : (k0 == k) = false := by
        simp [show ∀ a b : String, (a == b) = decide (a = b) from
          fun _ _ => rfl, h]
      have hb' : (k == k0) = false := by
        simp [show ∀ a b : String, (a == b) = decide (a = b) from
          fun _ _ => rfl]
        exact fun e => h e.symm
      simp [setKey, hb, List.lookup, hb', setKey_lookup_self rest k op]

/-- A Python dict assignment does not change the other keys. -/
theorem setKey_lookup_other :
    ∀ (r : Registry) (k k' : String) (op : UnsortedReduceOp), ¬ k' = k →
      List.lookup k' (setKey r k op) = List.lookup k' r
  | [], k, k', op, h => by
    have hb' : (k' == k) = false := by
      simp [show ∀ a b : String, (a == b) = decide (a = b) from
        fun _ _ => rfl, h]
    simp [setKey, List.lookup, hb']
  | (k0, v0) :: rest, k, k', op, h => by
    have hb' : (k' == k) = false := by
      simp [show ∀ a b : String, (a == b) = decide (a = b) from
        fun _ _ => rfl, h]
    by_cases h0 : k0 = k
    · subst h0
      simp [setKey, List.lookup, hb']
    · have hb0 : (k0 == k) = false := by
        simp [show ∀ a b : String, (a == b) = decide (a = b) from
          fun _ _ => rfl, h0]
      simp only [setKey, hb0, if_neg, Bool.false_eq_true, not_false_iff,
        ite_false, List.lookup]
      cases hb1 : k' == k0 with
      | true => rfl
      | false => exact setKey_lookup_other rest k k' op h

/-- Claim C4: `register_reduce_operation` with `allow_override=False` raises a
`ValueError` (and, the raise preceding the assignment, leaves the registry
unchanged) when `reduce_type` is already registered; when it is not
registered, or `allow_override` is true, it stores the op under
`reduce_type` and changes no other entry. -/
theorem register_reduce_operation_spec (r : Registry) (reduce_type : String)
    (op : UnsortedReduceOp) (allow_override : Bool) :
    (containsKey r reduce_type = true →
      register_reduce_operation r reduce_type op false =
        Except.error GnnError.reduceOpExists) ∧
    (containsKey r reduce_type = false ∨ allow_override = true →
      ∃ r', register_reduce_operation r reduce_type op allow_override =
          Except.ok r' ∧
        List.lookup reduce_type r' = some op ∧
        ∀ k, ¬ k = reduce_type → List.lookup k r' = List.lookup k r) := by
  constructor
  · intro h
    simp [register_reduce_operation, h]
  · intro h
    refine ⟨setKey r reduce_type op, ?_, setKey_lookup_self r reduce_type op,
      fun k hk => setKey_lookup_other r reduce_type k op hk⟩
    rcases h with h | h
    · simp [register_reduce_operation, h]
    · simp [register_reduce_operation, h]

end Gnn

/-- Witness for C4: registering `sum` again without override fails. -/
theorem Gnn.register_reduce_operation_spec_witness :
    Gnn.containsKey Gnn._REGISTERED_REDUCE_OPS "sum" = true ∧
    Gnn.register_reduce_operation Gnn._REGISTERED_REDUCE_OPS "sum"
      Gnn.unsorted_segment_sum false =
      Except.error Gnn.GnnError.reduceOpExists :=
  ⟨rfl, (Gnn.register_reduce_operation_spec Gnn._REGISTERED_REDUCE_OPS "sum"
    Gnn.unsorted_segment_sum false).1 rfl⟩

namespace Gnn

/-- The feature-argument resolver can fail only with the feature-argument
`ValueError` or a `KeyError`; never with the `ValueError` naming an unknown
reduce type. -/
theorem resolve_value_ne_unknown {α : Type} (fs : List (String × α))
    (fv : Option α) (fn : Option String) (rt : String) :
    resolve_value fs fv fn ≠ Except.error (GnnError.unknownReduceType rt) := by
  cases fv with
  | some v => cases fn <;> simp [resolve_value]
  | none =>
    cases fn with
    | none => simp [resolve_value]
    | some n =>
      simp only [resolve_value]
      cases hl : List.lookup n fs <;> simp

/-- Claim C3 (amended): `pool_edges_to_node` resolves the reduce type before
validating the feature arguments, so for any combination of feature
arguments it raises the `ValueError` naming the unknown reduce type exactly
when `reduce_type` is not a key of the registry at call time.
`pool_nodes_to_context` and `pool_edges_to_context` validate and resolve the
feature arguments first, so they satisfy the same equivalence whenever
feature resolution succeeds, that is, exactly one of
`feature_value`/`feature_name` is supplied and, when supplied by name, the
name is bound.  Whenever the name is registered, the registered operation is
the one applied. -/
theorem pool_reduce_type_validation (r : Registry) (g : GraphTensor Field)
    (edge_set_name node_set_name reduce_type : String)
    (node_tag : IncidentNodeTag) (es : EdgeSet Field) (ns cns : NodeSet Field)
    (feature_value : Option Field) (feature_name : Option String)
    (ve vc : Field)
    (hes : List.lookup edge_set_name g.edge_sets = some es)
    (hns : List.lookup (es.adjacency.node_set_name node_tag) g.node_sets =
      some ns)
    (hnn : List.lookup node_set_name g.node_sets = some cns)
    (hrese : resolve_value es.features feature_value feature_name =
      Except.ok ve)
    (hresc : resolve_value cns.features feature_value feature_name =
      Except.ok vc) :
    (∀ (fv : Option Field) (fn : Option String),
      pool_edges_to_node r g edge_set_name node_tag reduce_type fv fn =
          Except.error (GnnError.unknownReduceType reduce_type) ↔
        containsKey r reduce_type = false) ∧
    (pool_nodes_to_context r g node_set_name reduce_type feature_value
          feature_name =
        Except.error (GnnError.unknownReduceType reduce_type) ↔
      containsKey r reduce_type = false) ∧
    (pool_edges_to_context r g edge_set_name reduce_type feature_value
          feature_name =
        Except.error (GnnError.unknownReduceType reduce_type) ↔
      containsKey r reduce_type = false) ∧
    (∀ op, List.lookup reduce_type r = some op →
      pool_edges_to_node r g edge_set_name node_tag reduce_type
          feature_value feature_name =
        Except.ok (op ve (es.adjacency.indices node_tag) ns.total_size) ∧
      pool_nodes_to_context r g node_set_name reduce_type feature_value
          feature_name =
        Except.ok (op vc (row_lengths_to_row_ids cns.sizes)
          (outer_dimension_size cns.sizes)) ∧
      pool_edges_to_context r g edge_set_name reduce_type feature_value
          feature_name =
        Except.ok (op ve (row_lengths_to_row_ids es.sizes)
          (outer_dimension_size es.sizes))) := by
  cases hop : List.lookup reduce_type r with
  | none =>
    refine ⟨?_, ?_, ?_, ?_⟩
    · intro fv fn
      simp [pool_edges_to_node, _resolve_reduce_op, hop, containsKey]
    · simp [pool_nodes_to_context, _resolve_reduce_op, hop, containsKey,
        GraphTensor.getNodeSet, hnn, hresc]
    · simp [pool_edges_to_context, _resolve_reduce_op, hop, containsKey,
        GraphTensor.getEdgeSet, hes, hrese]
    · intro op hop2
      exact absurd hop2 (by simp)
  | some op =>
    have hck : containsKey r reduce_type = true := by simp [containsKey, hop]
    refine ⟨?_, ?_, ?_, ?_⟩
    · intro fv fn
      rw [hck]
      simp only [Bool.true_eq_false, iff_false]
      simp only [pool_edges_to_node, _resolve_reduce_op, hop,
        GraphTensor.getEdgeSet, hes]
      cases hr : resolve_value es.features fv fn with
      | error e =>
        show Except.error e ≠ Except.error
          (GnnError.unknownReduceType reduce_type)
        intro hcontra
        rw [Except.error.inj hcontra] at hr
        exact resolve_value_ne_unknown es.features fv fn reduce_type hr
      | ok val =>
        simp [GraphTensor.getNodeSet, hns]
    · simp [hck, pool_nodes_to_context, _resolve_reduce_op, hop,
        GraphTensor.getNodeSet, hnn, hresc]
    · simp [hck, pool_edges_to_context, _resolve_reduce_op, hop,
        GraphTensor.getEdgeSet, hes, hrese]
    · intro op2 hop2
      have heq := Option.some.inj hop2
      subst heq
      refine ⟨?_, ?_, ?_⟩ <;>
        simp [pool_edges_to_node, pool_nodes_to_context,
          pool_edges_to_context, _resolve_reduce_op, hop,
          GraphTensor.getEdgeSet, GraphTensor.getNodeSet, hes, hns, hnn,
          hrese, hresc]

end Gnn

/-- Counterexample to C3 as stated: `"bogus"` is not a registered reduce
type, yet `pool_nodes_to_context` called with both feature arguments raises
the feature-argument `ValueError`, not the one naming the unknown reduce
type, because `_pool_to_context` validates the feature arguments first. -/
theorem Gnn.pool_unknown_reduce_masked_counterexample :
    Gnn.containsKey Gnn._REGISTERED_REDUCE_OPS "bogus" = false ∧
    Gnn.pool_nodes_to_context Gnn._REGISTERED_REDUCE_OPS Gnn.wGraphC1 "nodes"
        "bogus" (some [1, 2]) (some "f") =
      Except.error Gnn.GnnError.featureArgError ∧
    (Except.error Gnn.GnnError.featureArgError :
        Except Gnn.GnnError Gnn.Field) ≠
      Except.error (Gnn.GnnError.unknownReduceType "bogus") := by
  refine ⟨rfl, rfl, ?_⟩
  intro h
  exact absurd (Except.error.inj h) (by decide)

/-- Witness for C3 (amended), exercising the feature-name argument mode
with an unbound name: `pool_edges_to_node` still raises the `ValueError`
naming the unregistered reduce type. -/
theorem Gnn.pool_reduce_type_validation_witness :
    (Gnn.resolve_value Gnn.wEdgesC1.features (some [1, 2]) none =
      Except.ok [1, 2]) ∧
    (Gnn.pool_edges_to_node Gnn._REGISTERED_REDUCE_OPS Gnn.wGraphC1 "edges"
        .source "bogus" none (some "f") =
        Except.error (Gnn.GnnError.unknownReduceType "bogus") ↔
      Gnn.containsKey Gnn._REGISTERED_REDUCE_OPS "bogus" = false) :=
  ⟨rfl, (Gnn.pool_reduce_type_validation Gnn._REGISTERED_REDUCE_OPS
    Gnn.wGraphC1 "edges" "nodes" "bogus" .source Gnn.wEdgesC1 Gnn.wNodesC1
    Gnn.wNodesC1 (some [1, 2]) none [1, 2] [1, 2] rfl rfl rfl rfl rfl).1
    none (some "f")⟩

namespace Gnn

/-- Claim C5: every broadcast, pool and gather operation of the module raises the
feature-argument `ValueError` when both of `feature_value`/`feature_name`
are given or when neither is given; when exactly one is given the operation
proceeds, using the explicit value if present and otherwise the feature
looked up by name. -/
theorem feature_args_validation (g : GraphTensor Field)
    (edge_set_name node_set_name fname : String) (node_tag : IncidentNodeTag)
    (es : EdgeSet Field) (ns cns : NodeSet Field) (v : Field)
    (hes : List.lookup edge_set_name g.edge_sets = some es)
    (hns : List.lookup (es.adjacency.node_set_name node_tag) g.node_sets =
      some ns)
    (hnn : List.lookup node_set_name g.node_sets = some cns) :
    broadcast_node_to_edges g edge_set_name node_tag (some v) (some fname) =
      Except.error GnnError.featureArgError ∧
    broadcast_node_to_edges g edge_set_name node_tag none none =
      Except.error GnnError.featureArgError ∧
    pool_edges_to_node _REGISTERED_REDUCE_OPS g edge_set_name node_tag "sum"
      (some v) (some fname) = Except.error GnnError.featureArgError ∧
    pool_edges_to_node _REGISTERED_REDUCE_OPS g edge_set_name node_tag "sum"
      none none = Except.error GnnError.featureArgError ∧
    broadcast_context_to_nodes g node_set_name (some v) (some fname) =
      Except.error GnnError.featureArgError ∧
    broadcast_context_to_nodes g node_set_name none none =
      Except.error GnnError.featureArgError ∧
    broadcast_context_to_edges g edge_set_name (some v) (some fname) =
      Except.error GnnError.featureArgError ∧
    broadcast_context_to_edges g edge_set_name none none =
      Except.error GnnError.featureArgError ∧
    pool_nodes_to_context _REGISTERED_REDUCE_OPS g node_set_name "sum"
      (some v) (some fname) = Except.error GnnError.featureArgError ∧
    pool_nodes_to_context _REGISTERED_REDUCE_OPS g node_set_name "sum"
      none none = Except.error GnnError.featureArgError ∧
    pool_edges_to_context _REGISTERED_REDUCE_OPS g edge_set_name "sum"
      (some v) (some fname) = Except.error GnnError.featureArgError ∧
    pool_edges_to_context _REGISTERED_REDUCE_OPS g edge_set_name "sum"
      none none = Except.error GnnError.featureArgError ∧
    gather_first_node g node_set_name (some v) (some fname) =
      Except.error GnnError.featureArgError ∧
    gather_first_node g node_set_name none none =
      Except.error GnnError.featureArgError ∧
    broadcast_node_to_edges g edge_set_name node_tag (some v) none =
      Except.ok (tf_gather v (es.adjacency.indices node_tag)) ∧
    (∀ w, List.lookup fname ns.features = some w →
      broadcast_node_to_edges g edge_set_name node_tag none (some fname) =
        Except.ok (tf_gather w (es.adjacency.indices node_tag))) ∧
    resolve_value cns.features (some v) none = Except.ok v ∧
    (∀ w, List.lookup fname cns.features = some w →
      resolve_value cns.features none (some fname) = Except.ok w) := by
  have hsum : List.lookup "sum" _REGISTERED_REDUCE_OPS =
      some unsorted_segment_sum := rfl
  repeat' apply And.intro
  all_goals
    first
    | (intro w hw
       simp [broadcast_node_to_edges, resolve_value, GraphTensor.getEdgeSet,
         GraphTensor.getNodeSet, hes, hns, hnn, hw])
    | simp [broadcast_node_to_edges, pool_edges_to_node,
        broadcast_context_to_nodes, broadcast_context_to_edges,
        pool_nodes_to_context, pool_edges_to_context, gather_first_node,
        resolve_value, _resolve_reduce_op, GraphTensor.getEdgeSet,
        GraphTensor.getNodeSet, hes, hns, hnn, hsum]

end Gnn

/-- Witness for C5: both feature arguments given at a concrete graph. -/
theorem Gnn.feature_args_validation_witness :
    List.lookup "nodes" Gnn.wGraphC1.node_sets = some Gnn.wNodesC1 ∧
    Gnn.broadcast_node_to_edges Gnn.wGraphC1 "edges" .source (some [1, 2])
      (some "f") = Except.error Gnn.GnnError.featureArgError :=
  ⟨rfl, (Gnn.feature_args_validation Gnn.wGraphC1 "edges" "nodes" "f" .source
    Gnn.wEdgesC1 Gnn.wNodesC1 Gnn.wNodesC1 [1, 2] rfl rfl rfl).1⟩

namespace Gnn

/-- Claim C6: for a node set whose components all have strictly positive size,
`gather_first_node` returns, for each component, the feature value at the
index given by the exclusive cumulative sum of the component sizes; when a
component has zero nodes it raises an error instead. -/
theorem gather_first_node_spec (g : GraphTensor Field)
    (node_set_name : String) (ns : NodeSet Field) (v : Field)
    (hns : List.lookup node_set_name g.node_sets = some ns) :
    gather_first_node g node_set_name (some v) none =
      if ns.sizes.all (fun s => decide (0 < s)) then
        Except.ok ((List.range ns.sizes.length).map
          (fun i => v.getD ((ns.sizes.take i).sum) 0))
      else Except.error GnnError.nonPositiveSizes := by
  by_cases h : ns.sizes.all (fun s => decide (0 < s))
  · simp [gather_first_node, GraphTensor.getNodeSet, hns, resolve_value, h,
      tf_gather, exclusive_cumsum, List.map_map, Function.comp]
  · simp [gather_first_node, GraphTensor.getNodeSet, hns, resolve_value, h]

end Gnn

/-- Witness node set for C6: two components of sizes 2 and 1. -/
def Gnn.wNodesC6 : Gnn.NodeSet Gnn.Field := ⟨[2, 1], []⟩

/-- Witness graph for C6. -/
def Gnn.wGraphC6 : Gnn.GraphTensor Gnn.Field :=
  ⟨⟨[]⟩, [("seeds", Gnn.wNodesC6)], []⟩

/-- Witness for C6: first-node readout at component starts 0 and 2. -/
theorem Gnn.gather_first_node_spec_witness :
    List.lookup "seeds" Gnn.wGraphC6.node_sets = some Gnn.wNodesC6 ∧
    Gnn.gather_first_node Gnn.wGraphC6 "seeds" (some [10, 20, 30]) none =
      Except.ok [10, 30] :=
  ⟨rfl, Gnn.gather_first_node_spec Gnn.wGraphC6 "seeds" Gnn.wNodesC6
    [10, 20, 30] rfl⟩

namespace Gnn

/-- A feature value for `shuffle_scalar_components`: dense, ragged (values
plus the `value_rowids` row partition), or a tensor type the operation does
not support. -/
inductive Feature where
  | dense (rows : List ℚ)
  | ragged (values : List ℚ) (value_rowids : List Nat)
  | unsupported
deriving DecidableEq, Repr

/-- Reordering a list by an index list.  `tf.random.shuffle(value, seed)` is
modelled as `apply_perm pi value d` for the random permutation `pi` drawn by
the op (the randomness source is passed in explicitly). -/
def apply_perm {α : Type} (pi : List Nat) (l : List α) (d : α) : List α :=
  pi.map (fun i => l.getD i d)

/-- Model of `tf.argsort(keys)`: the indices of `keys` sorted by key. -/
def tf_argsort (keys : List Nat) : List Nat :=
  (List.range keys.length).mergeSort (fun i j => keys.getD i 0 ≤ keys.getD j 0)

/-- Model of the `_shuffle` closure of `_shuffle_features`: a dense feature
is shuffled across its outer dimension; a ragged feature keeps its row
partition (`with_values`) and gets its values gathered by the argsort of the
shuffled `value_rowids`; anything else raises a `ValueError`. -/
def _shuffle_feature (pi : List Nat) : Feature → Except GnnError Feature
  | .dense rows => .ok (.dense (apply_perm pi rows 0))
  | .ragged values value_rowids =>
    .ok (.ragged
      (apply_perm (tf_argsort (apply_perm pi value_rowids 0)) values 0)
      value_rowids)
  | .unsupported => .error .unsupportedFeatureType

/-- Model of `_shuffle_features(features, seed)`: each named feature is
shuffled with its own random draw `rand name`. -/
def _shuffle_features (rand : String → List Nat) :
    List (String × Feature) → Except GnnError (List (String × Feature))
  | [] => .ok []
  | (name, f) :: rest =>
    match _shuffle_feature (rand name) f with
    | .error e => .error e
    | .ok f' =>
      match _shuffle_features rand rest with
      | .error e => .error e
      | .ok rest' => .ok ((name, f') :: rest')

/-- Shuffling the features of each named set in a collection of sets. -/
def _shuffle_feature_maps (rand : String → String → List Nat) :
    List (String × List (String × Feature)) →
    Except GnnError (List (String × List (String × Feature)))
  | [] => .ok []
  | (set_name, fs) :: rest =>
    match _shuffle_features (rand set_name) fs with
    | .error e => .error e
    | .ok fs' =>
      match _shuffle_feature_maps rand rest with
      | .error e => .error e
      | .ok rest' => .ok ((set_name, fs') :: rest')

/-- Modelled from the spec: `GraphTensor.replace_features` (defined in
`graph_tensor.py`, which is not part of this fragment) returns a graph
tensor with the same node sets, edge sets, sizes and adjacency, replacing
the features of each named set by the given mapping. -/
def replace_features (g : GraphTensor Feature)
    (context : List (String × Feature))
    (node_features edge_features :
      List (String × List (String × Feature))) : GraphTensor Feature :=
  ⟨⟨context⟩,
   g.node_sets.map (fun p => (p.1,
     ⟨p.2.sizes, (List.lookup p.1 node_features).getD p.2.features⟩)),
   g.edge_sets.map (fun p => (p.1,
     ⟨p.2.sizes, p.2.adjacency,
       (List.lookup p.1 edge_features).getD p.2.features⟩))⟩

/-- Model of `shuffle_scalar_components(graph_tensor, seed)`: shuffles
context, node set and edge set features across components.  The random
permutations drawn by the underlying `tf.random.shuffle` calls are passed
in explicitly (`randc` for context features, `randn`/`rande` for node/edge
set features, keyed by set and feature name). -/
def shuffle_scalar_components (randc : String → List Nat)
    (randn rande : String → String → List Nat) (g : GraphTensor Feature) :
    Except GnnError (GraphTensor Feature) :=
  match _shuffle_features randc g.context.features with
  | .error e => .error e
  | .ok context =>
    match _shuffle_feature_maps randn
        (g.node_sets.map (fun p => (p.1, p.2.features))) with
    | .error e => .error e
    | .ok node_sets =>
      match _shuffle_feature_maps rande
          (g.edge_sets.map (fun p => (p.1, p.2.features))) with
      | .error e => .error e
      | .ok edge_sets => .ok (replace_features g context node_sets edge_sets)

/-- What shuffling does to a single feature: a dense feature becomes a
permutation of its rows; a ragged feature keeps its row partition and gets
a permutation of its values. -/
def feature_shuffled : Feature → Feature → Prop
  | .dense rows, .dense rows' => rows'.Perm rows
  | .ragged values value_rowids, .ragged values' value_rowids' =>
    value_rowids' = value_rowids ∧ values'.Perm values
  | _, _ => False

/-- A feature map is shuffled entrywise, names preserved in order. -/
def features_shuffled (fs fs' : List (String × Feature)) : Prop :=
  List.Forall₂ (fun p q => p.1 = q.1 ∧ feature_shuffled p.2 q.2) fs fs'

/-- A supported, well-formed feature: dense, or ragged with one row id per
value. -/
def feature_ok : Feature → Prop
  | .dense _ => True
  | .ragged values value_rowids => values.length = value_rowids.length
  | .unsupported => False

/-- Whether a feature is of a type `_shuffle_features` rejects. -/
def is_unsupported : Feature → Bool
  | .unsupported => true
  | _ => false

/-- The permutation drawn for a feature has the right length: it permutes
the outer dimension (dense) or the value row ids (ragged). -/
def perm_for (pi : List Nat) : Feature → Prop
  | .dense rows => pi.Perm (List.range rows.length)
  | .ragged _ value_rowids => pi.Perm (List.range value_rowids.length)
  | .unsupported => True

/-- The randomness source draws permutations of the right lengths. -/
def rand_ok (rand : String → List Nat) (fs : List (String × Feature)) : Prop :=
  ∀ p ∈ fs, perm_for (rand p.1) p.2

end Gnn

namespace Gnn

/-- Applying a permutation of the index range reorders the list. -/
theorem apply_perm_perm {α : Type} (pi : List Nat) (l : List α) (d : α)
    (h : pi.Perm (List.range l.length)) : (apply_perm pi l d).Perm l := by
  have hm := h.map (fun i => l.getD i d)
  rw [map_getD_range d l] at hm
  exact hm

/-- Model of argsort always returns a permutation of the index range. -/
theorem tf_argsort_perm (keys : List Nat) :
    (tf_argsort keys).Perm (List.range keys.length) :=
  List.mergeSort_perm _ _

/-- Shuffling a supported, well-formed feature with a right-length
permutation succeeds and permutes it as described. -/
theorem _shuffle_feature_ok (pi : List Nat) (f : Feature)
    (hok : feature_ok f) (hperm : perm_for pi f) :
    ∃ f', _shuffle_feature pi f = Except.ok f' ∧ feature_shuffled f f' := by
  cases f with
  | dense rows =>
    exact ⟨_, rfl, apply_perm_perm pi rows 0 hperm⟩
  | ragged values value_rowids =>
    refine ⟨_, rfl, rfl, ?_⟩
    apply apply_perm_perm
    have hlen : (apply_perm pi value_rowids 0).length = values.length := by
      have h1 : pi.length = (List.range value_rowids.length).length :=
        hperm.length_eq
      simp only [List.length_range] at h1
      simp [apply_perm, h1]
      exact hok.symm
    have h2 := tf_argsort_perm (apply_perm pi value_rowids 0)
    rwa [hlen] at h2
  | unsupported => exact absurd hok (by simp [feature_ok])

/-- Shuffling a map of supported, well-formed features succeeds and shuffles
each entry. -/
theorem _shuffle_features_ok (rand : String → List Nat) :
    ∀ (fs : List (String × Feature)), (∀ p ∈ fs, feature_ok p.2) →
      rand_ok rand fs →
      ∃ fs', _shuffle_features rand fs = Except.ok fs' ∧
        features_shuffled fs fs'
  | [], _, _ => ⟨[], rfl, List.Forall₂.nil⟩
  | (name, f) :: rest, hok, hrand => by
    obtain ⟨f', hf', hsh⟩ := _shuffle_feature_ok (rand name) f
      (hok (name, f) (List.mem_cons_self _ _))
      (hrand (name, f) (List.mem_cons_self _ _))
    obtain ⟨rest', hrest', hshr⟩ := _shuffle_features_ok rand rest
      (fun p hp => hok p (List.mem_cons_of_mem _ hp))
      (fun p hp => hrand p (List.mem_cons_of_mem _ hp))
    exact ⟨(name, f') :: rest',
      by simp [_shuffle_features, hf', hrest'],
      List.Forall₂.cons ⟨rfl, hsh⟩ hshr⟩

/-- Shuffling a map with no unsupported feature never raises. -/
theorem _shuffle_features_no_error (rand : String → List Nat) :
    ∀ (fs : List (String × Feature)),
      (∀ p ∈ fs, is_unsupported p.2 = false) →
      ∃ fs', _shuffle_features rand fs = Except.ok fs'
  | [], _ => ⟨[], rfl⟩
  | (name, f) :: rest, h => by
    obtain ⟨rest', hrest'⟩ := _shuffle_features_no_error rand rest
      (fun p hp => h p (List.mem_cons_of_mem _ hp))
    cases f with
    | dense rows =>
      exact ⟨(name, Feature.dense (apply_perm (rand name) rows 0)) :: rest',
        by simp [_shuffle_features, _shuffle_feature, hrest']⟩
    | ragged values value_rowids =>
      exact ⟨(name, Feature.ragged
          (apply_perm (tf_argsort (apply_perm (rand name) value_rowids 0))
            values 0) value_rowids) :: rest',
        by simp [_shuffle_features, _shuffle_feature, hrest']⟩
    | unsupported =>
      exact absurd (h (name, .unsupported) (List.mem_cons_self _ _))
        (by simp [is_unsupported])

/-- Shuffling a map containing an unsupported feature raises the
`ValueError`. -/
theorem _shuffle_features_err (rand : String → List Nat) :
    ∀ (fs : List (String × Feature)),
      (∃ p ∈ fs, is_unsupported p.2 = true) →
      _shuffle_features rand fs = Except.error GnnError.unsupportedFeatureType
  | [], h => absurd h (by simp)
  | (name, f) :: rest, h => by
    cases f with
    | unsupported => simp [_shuffle_features, _shuffle_feature]
    | dense rows =>
      have hrest : ∃ p ∈ rest, is_unsupported p.2 = true := by
        rcases h with ⟨p, hp, hu⟩
        rcases List.mem_cons.mp hp with he | hm
        · rw [he] at hu
          exact absurd hu (by simp [is_unsupported])
        · exact ⟨p, hm, hu⟩
      simp [_shuffle_features, _shuffle_feature,
        _shuffle_features_err rand rest hrest]
    | ragged values value_rowids =>
      have hrest : ∃ p ∈ rest, is_unsupported p.2 = true := by
        rcases h with ⟨p, hp, hu⟩
        rcases List.mem_cons.mp hp with he | hm
        · rw [he] at hu
          exact absurd hu (by simp [is_unsupported])
        · exact ⟨p, hm, hu⟩
      simp [_shuffle_features, _shuffle_feature,
        _shuffle_features_err rand rest hrest]

/-- Set-by-set variant of `_shuffle_features_ok`. -/
theorem _shuffle_feature_maps_ok (rand : String → String → List Nat) :
    ∀ (ms : List (String × List (String × Feature))),
      (∀ q ∈ ms, ∀ p ∈ q.2, feature_ok p.2) →
      (∀ q ∈ ms, rand_ok (rand q.1) q.2) →
      ∃ ms', _shuffle_feature_maps rand ms = Except.ok ms' ∧
        List.Forall₂ (fun q q' => q.1 = q'.1 ∧ features_shuffled q.2 q'.2)
          ms ms'
  | [], _, _ => ⟨[], rfl, List.Forall₂.nil⟩
  | (set_name, fs) :: rest, hok, hrand => by
    obtain ⟨fs', hfs', hsh⟩ := _shuffle_features_ok (rand set_name) fs
      (hok (set_name, fs) (List.mem_cons_self _ _))
      (hrand (set_name, fs) (List.mem_cons_self _ _))
    obtain ⟨rest', hrest', hshr⟩ := _shuffle_feature_maps_ok rand rest
      (fun q hq => hok q (List.mem_cons_of_mem _ hq))
      (fun q hq => hrand q (List.mem_cons_of_mem _ hq))
    exact ⟨(set_name, fs') :: rest',
      by simp [_shuffle_feature_maps, hfs', hrest'],
      List.Forall₂.cons ⟨rfl, hsh⟩ hshr⟩

/-- Set-by-set variant of `_shuffle_features_no_error`. -/
theorem _shuffle_feature_maps_no_error (rand : String → String → List Nat) :
    ∀ (ms : List (String × List (String × Feature))),
      (∀ q ∈ ms, ∀ p ∈ q.2, is_unsupported p.2 = false) →
      ∃ ms', _shuffle_feature_maps rand ms = Except.ok ms'
  | [], _ => ⟨[], rfl⟩
  | (set_name, fs) :: rest, h => by
    obtain ⟨fs', hfs'⟩ := _shuffle_features_no_error (rand set_name) fs
      (fun p hp => h (set_name, fs) (List.mem_cons_self _ _) p hp)
    obtain ⟨rest', hrest'⟩ := _shuffle_feature_maps_no_error rand rest
      (fun q hq => h q (List.mem_cons_of_mem _ hq))
    exact ⟨(set_name, fs') :: rest',
      by simp [_shuffle_feature_maps, hfs', hrest']⟩

/-- Set-by-set variant of `_shuffle_features_err`. -/
theorem _shuffle_feature_maps_err (rand : String → String → List Nat) :
    ∀ (ms : List (String × List (String × Feature))),
      (∃ q ∈ ms, ∃ p ∈ q.2, is_unsupported p.2 = true) →
      _shuffle_feature_maps rand ms =
        Except.error GnnError.unsupportedFeatureType
  | [], h => absurd h (by simp)
  | (set_name, fs) :: rest, h => by
    by_cases hhead : ∃ p ∈ fs, is_unsupported p.2 = true
    · simp [_shuffle_feature_maps,
        _shuffle_features_err (rand set_name) fs hhead]
    · have hfalse : ∀ p ∈ fs, is_unsupported p.2 = false := by
        intro p hp
        rcases Bool.eq_false_or_eq_true (is_unsupported p.2) with ht | hf
        · exact absurd ⟨p, hp, ht⟩ hhead
        · exact hf
      obtain ⟨fs', hfs'⟩ :=
        _shuffle_features_no_error (rand set_name) fs hfalse
      have hrest : ∃ q ∈ rest, ∃ p ∈ q.2, is_unsupported p.2 = true := by
        rcases h with ⟨q, hq, p, hp, hu⟩
        rcases List.mem_cons.mp hq with he | hm
        · rw [he] at hp
          exact absurd ⟨p, hp, hu⟩ hhead
        · exact ⟨q, hm, p, hp, hu⟩
      simp [_shuffle_feature_maps, hfs',
        _shuffle_feature_maps_err rand rest hrest]

end Gnn

namespace Gnn

/-- Alignment of `replace_features` for node sets: replacing features from a
name-aligned shuffled map (with no duplicate set names) pairs each node set
with its shuffled features, keeping its sizes. -/
theorem replace_aligned_nodes :
    ∀ (sets : List (String × NodeSet Feature))
      (fmaps : List (String × List (String × Feature))),
      List.Forall₂
        (fun p q => p.1 = q.1 ∧ features_shuffled p.2.features q.2)
        sets fmaps →
      (sets.map Prod.fst).Nodup →
      List.Forall₂ (fun p q => p.1 = q.1 ∧ q.2.sizes = p.2.sizes ∧
          features_shuffled p.2.features q.2.features)
        sets (sets.map (fun p => (p.1,
          (⟨p.2.sizes, (List.lookup p.1 fmaps).getD p.2.features⟩ :
            NodeSet Feature))))
  | [], [], _, _ => List.Forall₂.nil
  | p :: sets', q :: fmaps', hf, hnodup => by
    rcases List.forall₂_cons.mp hf with ⟨⟨hname, hsh⟩, htail⟩
    rw [List.map_cons] at hnodup
    rcases List.nodup_cons.mp hnodup with ⟨hnotmem, hnd'⟩
    rw [List.map_cons]
    refine List.Forall₂.cons ?_ ?_
    · have hlk : List.lookup p.1 (q :: fmaps') = some q.2 := by
        have : (p.1 == q.1) = true := by
          simp [show ∀ a b : String, (a == b) = decide (a = b) from
            fun _ _ => rfl, hname]
        simp [List.lookup, this]
      exact ⟨rfl, by simp [hlk], by simp [hlk]; exact hsh⟩
    · have hmapeq : sets'.map (fun p' => (p'.1,
          (⟨p'.2.sizes, (List.lookup p'.1 (q :: fmaps')).getD p'.2.features⟩ :
            NodeSet Feature))) =
        sets'.map (fun p' => (p'.1,
          (⟨p'.2.sizes, (List.lookup p'.1 fmaps').getD p'.2.features⟩ :
            NodeSet Feature))) := by
        apply List.map_congr_left
        intro a ha
        have hne : ¬ a.1 = q.1 := by
          intro he
          apply hnotmem
          have hm : a.1 ∈ sets'.map Prod.fst := List.mem_map_of_mem Prod.fst ha
          rwa [he, ← hname] at hm
        have : (a.1 == q.1) = false := by
          simp [show ∀ x y : String, (x == y) = decide (x = y) from
            fun _ _ => rfl, hne]
        simp [List.lookup, this]
      rw [hmapeq]
      exact replace_aligned_nodes sets' fmaps' htail hnd'

/-- Alignment of `replace_features` for edge sets, also keeping the
adjacency. -/
theorem replace_aligned_edges :
    ∀ (sets : List (String × EdgeSet Feature))
      (fmaps : List (String × List (String × Feature))),
      List.Forall₂
        (fun p q => p.1 = q.1 ∧ features_shuffled p.2.features q.2)
        sets fmaps →
      (sets.map Prod.fst).Nodup →
      List.Forall₂ (fun p q => p.1 = q.1 ∧ q.2.sizes = p.2.sizes ∧
          q.2.adjacency = p.2.adjacency ∧
          features_shuffled p.2.features q.2.features)
        sets (sets.map (fun p => (p.1,
          (⟨p.2.sizes, p.2.adjacency,
            (List.lookup p.1 fmaps).getD p.2.features⟩ : EdgeSet Feature))))
  | [], [], _, _ => List.Forall₂.nil
  | p :: sets', q :: fmaps', hf, hnodup => by
    rcases List.forall₂_cons.mp hf with ⟨⟨hname, hsh⟩, htail⟩
    rw [List.map_cons] at hnodup
    rcases List.nodup_cons.mp hnodup with ⟨hnotmem, hnd'⟩
    rw [List.map_cons]
    refine List.Forall₂.cons ?_ ?_
    · have hlk : List.lookup p.1 (q :: fmaps') = some q.2 := by
        have : (p.1 == q.1) = true := by
          simp [show ∀ a b : String, (a == b) = decide (a = b) from
            fun _ _ => rfl, hname]
        simp [List.lookup, this]
      exact ⟨rfl, by simp [hlk], by simp [hlk], by simp [hlk]; exact hsh⟩
    · have hmapeq : sets'.map (fun p' => (p'.1,
          (⟨p'.2.sizes, p'.2.adjacency,
            (List.lookup p'.1 (q :: fmaps')).getD p'.2.features⟩ :
            EdgeSet Feature))) =
        sets'.map (fun p' => (p'.1,
          (⟨p'.2.sizes, p'.2.adjacency,
            (List.lookup p'.1 fmaps').getD p'.2.features⟩ :
            EdgeSet Feature))) := by
        apply List.map_congr_left
        intro a ha
        have hne : ¬ a.1 = q.1 := by
          intro he
          apply hnotmem
          have hm : a.1 ∈ sets'.map Prod.fst := List.mem_map_of_mem Prod.fst ha
          rwa [he, ← hname] at hm
        have : (a.1 == q.1) = false := by
          simp [show ∀ x y : String, (x == y) = decide (x = y) from
            fun _ _ => rfl, hne]
        simp [List.lookup, this]
      rw [hmapeq]
      exact replace_aligned_edges sets' fmaps' htail hnd'

/-- All features of a graph are supported and well-formed. -/
def graph_features_ok (g : GraphTensor Feature) : Prop :=
  (∀ p ∈ g.context.features, feature_ok p.2) ∧
  (∀ q ∈ g.node_sets, ∀ p ∈ q.2.features, feature_ok p.2) ∧
  (∀ q ∈ g.edge_sets, ∀ p ∈ q.2.features, feature_ok p.2)

/-- Some feature of the graph is of an unsupported tensor type. -/
def graph_has_unsupported (g : GraphTensor Feature) : Prop :=
  (∃ p ∈ g.context.features, is_unsupported p.2 = true) ∨
  (∃ q ∈ g.node_sets, ∃ p ∈ q.2.features, is_unsupported p.2 = true) ∨
  (∃ q ∈ g.edge_sets, ∃ p ∈ q.2.features, is_unsupported p.2 = true)

/-- The randomness sources draw permutations of the right lengths for every
feature of the graph. -/
def graph_rand_ok (randc : String → List Nat)
    (randn rande : String → String → List Nat)
    (g : GraphTensor Feature) : Prop :=
  rand_ok randc g.context.features ∧
  (∀ q ∈ g.node_sets, rand_ok (randn q.1) q.2.features) ∧
  (∀ q ∈ g.edge_sets, rand_ok (rande q.1) q.2.features)

/-- The output of a successful shuffle: same component structure (set names,
sizes, adjacency), context, node and edge features shuffled entrywise. -/
def shuffled_graph (g g' : GraphTensor Feature) : Prop :=
  features_shuffled g.context.features g'.context.features ∧
  List.Forall₂ (fun p q => p.1 = q.1 ∧ q.2.sizes = p.2.sizes ∧
    features_shuffled p.2.features q.2.features) g.node_sets g'.node_sets ∧
  List.Forall₂ (fun p q => p.1 = q.1 ∧ q.2.sizes = p.2.sizes ∧
    q.2.adjacency = p.2.adjacency ∧
    features_shuffled p.2.features q.2.features) g.edge_sets g'.edge_sets

end Gnn

namespace Gnn

/-- Claim C10: for a scalar graph tensor whose features are all dense or
ragged (and whose set names are unique, as for Python dicts),
`shuffle_scalar_components` succeeds and returns a graph tensor with the
same node sets, edge sets, adjacency and per-component sizes, where every
dense feature is a permutation of the rows of the original and every ragged
feature keeps its row partition and gets a permutation of its values; a
feature that is neither dense nor ragged makes it raise a `ValueError`. -/
theorem shuffle_scalar_components_spec (randc : String → List Nat)
    (randn rande : String → String → List Nat) (g : GraphTensor Feature)
    (hrand : graph_rand_ok randc randn rande g)
    (hnodupN : (g.node_sets.map Prod.fst).Nodup)
    (hnodupE : (g.edge_sets.map Prod.fst).Nodup) :
    (graph_features_ok g →
      ∃ g', shuffle_scalar_components randc randn rande g = Except.ok g' ∧
        shuffled_graph g g') ∧
    (graph_has_unsupported g →
      shuffle_scalar_components randc randn rande g =
        Except.error GnnError.unsupportedFeatureType) := by
  obtain ⟨hrc, hrn, hre⟩ := hrand
  constructor
  · rintro ⟨hc, hn, he⟩
    obtain ⟨ctx', hctx', hshc⟩ :=
      _shuffle_features_ok randc g.context.features hc hrc
    obtain ⟨nm', hnm', hshn⟩ := _shuffle_feature_maps_ok randn
      (g.node_sets.map (fun p => (p.1, p.2.features)))
      (by
        intro q hq
        rcases List.mem_map.mp hq with ⟨a, ha, rfl⟩
        exact hn a ha)
      (by
        intro q hq
        rcases List.mem_map.mp hq with ⟨a, ha, rfl⟩
        exact hrn a ha)
    obtain ⟨em', hem', hshe⟩ := _shuffle_feature_maps_ok rande
      (g.edge_sets.map (fun p => (p.1, p.2.features)))
      (by
        intro q hq
        rcases List.mem_map.mp hq with ⟨a, ha, rfl⟩
        exact he a ha)
      (by
        intro q hq
        rcases List.mem_map.mp hq with ⟨a, ha, rfl⟩
        exact hre a ha)
    refine ⟨replace_features g ctx' nm' em',
      by simp [shuffle_scalar_components, hctx', hnm', hem'], hshc, ?_, ?_⟩
    · have hal : List.Forall₂
          (fun p q => p.1 = q.1 ∧ features_shuffled p.2.features q.2)
          g.node_sets nm' := List.forall₂_map_left_iff.mp hshn
      exact replace_aligned_nodes g.node_sets nm' hal hnodupN
    · have hal : List.Forall₂
          (fun p q => p.1 = q.1 ∧ features_shuffled p.2.features q.2)
          g.edge_sets em' := List.forall₂_map_left_iff.mp hshe
      exact replace_aligned_edges g.edge_sets em' hal hnodupE
  · intro hbad
    by_cases hcbad : ∃ p ∈ g.context.features, is_unsupported p.2 = true
    · simp [shuffle_scalar_components,
        _shuffle_features_err randc _ hcbad]
    · have hcok : ∀ p ∈ g.context.features, is_unsupported p.2 = false := by
        intro p hp
        rcases Bool.eq_false_or_eq_true (is_unsupported p.2) with ht | hf
        · exact absurd ⟨p, hp, ht⟩ hcbad
        · exact hf
      obtain ⟨ctx', hctx'⟩ :=
        _shuffle_features_no_error randc g.context.features hcok
      by_cases hnbad : ∃ q ∈ g.node_sets, ∃ p ∈ q.2.features,
          is_unsupported p.2 = true
      · have hmap : ∃ q ∈ g.node_sets.map (fun p => (p.1, p.2.features)),
            ∃ p ∈ q.2, is_unsupported p.2 = true := by
          rcases hnbad with ⟨a, ha, p, hp, hu⟩
          exact ⟨(a.1, a.2.features),
            List.mem_map_of_mem (fun p => (p.1, p.2.features)) ha, p, hp, hu⟩
        simp [shuffle_scalar_components, hctx',
          _shuffle_feature_maps_err randn _ hmap]
      · have hnok : ∀ q ∈ g.node_sets.map (fun p => (p.1, p.2.features)),
            ∀ p ∈ q.2, is_unsupported p.2 = false := by
          intro q hq p hp
          rcases List.mem_map.mp hq with ⟨a, ha, rfl⟩
          rcases Bool.eq_false_or_eq_true (is_unsupported p.2) with ht | hf
          · exact absurd ⟨a, ha, p, hp, ht⟩ hnbad
          · exact hf
        obtain ⟨nm', hnm'⟩ := _shuffle_feature_maps_no_error randn _ hnok
        have hebad : ∃ q ∈ g.edge_sets, ∃ p ∈ q.2.features,
            is_unsupported p.2 = true := by
          rcases hbad with hcb | hnb | heb
          · exact absurd hcb hcbad
          · exact absurd hnb hnbad
          · exact heb
        have hmap : ∃ q ∈ g.edge_sets.map (fun p => (p.1, p.2.features)),
            ∃ p ∈ q.2, is_unsupported p.2 = true := by
          rcases hebad with ⟨a, ha, p, hp, hu⟩
          exact ⟨(a.1, a.2.features),
            List.mem_map_of_mem (fun p => (p.1, p.2.features)) ha, p, hp, hu⟩
        simp [shuffle_scalar_components, hctx', hnm',
          _shuffle_feature_maps_err rande _ hmap]

end Gnn

/-- Witness graph for C10: one node set carrying a feature that is neither
dense nor ragged. -/
def Gnn.wGraphC10 : Gnn.GraphTensor Gnn.Feature :=
  ⟨⟨[]⟩, [("n", ⟨[1], [("f", Gnn.Feature.unsupported)]⟩)], []⟩

/-- Witness for C10: the unsupported feature makes the shuffle raise. -/
theorem Gnn.shuffle_scalar_components_spec_witness :
    Gnn.graph_has_unsupported Gnn.wGraphC10 ∧
    Gnn.shuffle_scalar_components (fun _ => []) (fun _ _ => [])
      (fun _ _ => []) Gnn.wGraphC10 =
      Except.error Gnn.GnnError.unsupportedFeatureType := by
  have hbad : Gnn.graph_has_unsupported Gnn.wGraphC10 :=
    Or.inr (Or.inl ⟨("n", ⟨[1], [("f", Gnn.Feature.unsupported)]⟩),
      by simp [Gnn.wGraphC10], ("f", Gnn.Feature.unsupported),
      by simp, rfl⟩)
  refine ⟨hbad, (Gnn.shuffle_scalar_components_spec (fun _ => [])
    (fun _ _ => []) (fun _ _ => []) Gnn.wGraphC10 ?_ ?_ ?_).2 hbad⟩
  · refine ⟨?_, ?_, ?_⟩ <;>
      simp [Gnn.rand_ok, Gnn.wGraphC10, Gnn.perm_for]
  · simp [Gnn.wGraphC10]
  · simp [Gnn.wGraphC10]

namespace Tfp

/-- Modelled from the spec: the kernel results of
`GradientBasedTrajectoryLengthAdaptation` (the implementation is not part of
this fragment; only its test is) carry a step counter and the adaptation
accumulators, the maximum trajectory length and the running average of the
squared gradient. -/
structure GBTLAResults where
  step : Nat
  max_trajectory_length : ℚ
  averaged_sq_grad : ℚ
deriving DecidableEq, Repr

/-- Modelled from the spec: `bootstrap_results` initialises the step counter
to zero with the configured initial accumulator values. -/
def bootstrap_results (initial_max_trajectory_length
    initial_averaged_sq_grad : ℚ) : GBTLAResults :=
  ⟨0, initial_max_trajectory_length, initial_averaged_sq_grad⟩

/-- Modelled from the spec: `one_step` updates the adaptation accumulators
by the criterion-gradient update rule (abstracted as `upd`, since the actual
gradient computation lives in the host framework) while the step counter is
below `num_adaptation_steps`, and holds them constant afterwards; the step
counter always increments. -/
def one_step (num_adaptation_steps : Nat) (upd : GBTLAResults → ℚ × ℚ)
    (r : GBTLAResults) : GBTLAResults :=
  if r.step < num_adaptation_steps then
    ⟨r.step + 1, (upd r).1, (upd r).2⟩
  else
    ⟨r.step + 1, r.max_trajectory_length, r.averaged_sq_grad⟩

/-- Results after `k` consecutive `one_step` calls. -/
def run_steps (num_adaptation_steps : Nat) (upd : GBTLAResults → ℚ × ℚ)
    (r0 : GBTLAResults) : Nat → GBTLAResults
  | 0 => r0
  | k + 1 => one_step num_adaptation_steps upd
      (run_steps num_adaptation_steps upd r0 k)

/-- The step counter counts the `one_step` calls. -/
theorem run_steps_step (n : Nat) (upd : GBTLAResults → ℚ × ℚ)
    (r0 : GBTLAResults) : ∀ k, (run_steps n upd r0 k).step = r0.step + k
  | 0 => rfl
  | k + 1 => by
    have ih := run_steps_step n upd r0 k
    unfold run_steps one_step
    rw [ih]
    split <;> simp [Nat.add_assoc]

/-- Claim C9: starting from `bootstrap_results` (step counter 0), each of
the first `n` `one_step` calls updates `max_trajectory_length` by the
adaptation rule, and every `one_step` call after the `n`-th leaves it at its
value after step `n`. -/
theorem adaptation_freezes_after_horizon (n : Nat)
    (upd : GBTLAResults → ℚ × ℚ) (r0 : GBTLAResults) (h0 : r0.step = 0) :
    (∀ k, k < n → (run_steps n upd r0 (k + 1)).max_trajectory_length =
      (upd (run_steps n upd r0 k)).1) ∧
    (∀ m, n ≤ m → (run_steps n upd r0 m).max_trajectory_length =
      (run_steps n upd r0 n).max_trajectory_length) := by
  have hstep : ∀ k, (run_steps n upd r0 k).step = k := by
    intro k
    rw [run_steps_step n upd r0 k, h0, Nat.zero_add]
  constructor
  · intro k hk
    show (one_step n upd (run_steps n upd r0 k)).max_trajectory_length = _
    unfold one_step
    rw [hstep k]
    simp [hk]
  · intro m hm
    induction m with
    | zero =>
      have : n = 0 := Nat.le_zero.mp hm
      rw [this]
    | succ m ih =>
      rcases Nat.lt_or_ge n (m + 1) with hlt | hge
      · have hnm : n ≤ m := Nat.lt_succ_iff.mp hlt
        have hfrozen : ¬ (run_steps n upd r0 m).step < n := by
          rw [hstep m]
          exact Nat.not_lt.mpr hnm
        show (one_step n upd (run_steps n upd r0 m)).max_trajectory_length = _
        unfold one_step
        rw [if_neg hfrozen]
        exact ih hnm
      · have : n = m + 1 := Nat.le_antisymm hm hge
        rw [this]

end Tfp

/-- Witness update rule for C9. -/
def Tfp.wUpdC9 : Tfp.GBTLAResults → ℚ × ℚ :=
  fun r => (r.max_trajectory_length + 1, r.averaged_sq_grad / 2)

/-- Witness for C9: with `num_adaptation_steps = 1`, the accumulator after
three steps equals the accumulator after one step. -/
theorem Tfp.adaptation_freezes_after_horizon_witness :
    (Tfp.bootstrap_results 1 0).step = 0 ∧
    (Tfp.run_steps 1 Tfp.wUpdC9 (Tfp.bootstrap_results 1 0)
        3).max_trajectory_length =
      (Tfp.run_steps 1 Tfp.wUpdC9 (Tfp.bootstrap_results 1 0)
        1).max_trajectory_length :=
  ⟨rfl, (Tfp.adaptation_freezes_after_horizon 1 Tfp.wUpdC9
    (Tfp.bootstrap_results 1 0) rfl).2 3 (by decide)⟩

namespace Tfp

open Matrix

/-- Modelled from the spec: the divisor matrix of a Student-t process
regression model, the kernel matrix over the observation index points plus
the observation noise on the diagonal.  Its Cholesky factorization is the
expensive step the "precomputed" variant caches. -/
noncomputable def divisor_matrix {o : Type} [Fintype o] [DecidableEq o]
    (k_oo : Matrix o o ℝ) (observation_noise_variance : ℝ) : Matrix o o ℝ :=
  k_oo + observation_noise_variance • 1

/-- Modelled from the spec: the posterior mean of a
`StudentTProcessRegressionModel` constructed directly: the prior mean at the
query points plus the cross-kernel applied to the divisor-matrix solve of
the observation residual. -/
noncomputable def stprm_mean {o q : Type} [Fintype o] [Fintype q] [DecidableEq o]
    (k_qo : Matrix q o ℝ) (divisor : Matrix o o ℝ) (mean_q : q → ℝ)
    (residual : o → ℝ) : q → ℝ :=
  mean_q + k_qo.mulVec (divisor⁻¹.mulVec residual)

/-- Modelled from the spec: the Student-t covariance rescaling factor
`(df + residual' divisor⁻¹ residual - 2) / (df + num_obs - 2)`. -/
noncomputable def stprm_scale {o : Type} [Fintype o] [DecidableEq o] (df : ℝ)
    (divisor : Matrix o o ℝ) (residual : o → ℝ) (num_obs : ℕ) : ℝ :=
  (df + residual ⬝ᵥ divisor⁻¹.mulVec residual - 2) / (df + num_obs - 2)

/-- Modelled from the spec: the posterior covariance of a directly
constructed model, the rescaled Schur complement of the divisor matrix. -/
noncomputable def stprm_covariance {o q : Type} [Fintype o] [Fintype q] [DecidableEq o]
    (df : ℝ) (k_qq : Matrix q q ℝ) (k_qo : Matrix q o ℝ)
    (divisor : Matrix o o ℝ) (residual : o → ℝ) (num_obs : ℕ) :
    Matrix q q ℝ :=
  stprm_scale df divisor residual num_obs •
    (k_qq - k_qo * divisor⁻¹ * k_qoᵀ)

/-- Modelled from the spec: the posterior variance, the diagonal of the
posterior covariance. -/
noncomputable def stprm_variance {o q : Type} [Fintype o] [Fintype q] [DecidableEq o]
    (df : ℝ) (k_qq : Matrix q q ℝ) (k_qo : Matrix q o ℝ)
    (divisor : Matrix o o ℝ) (residual : o → ℝ) (num_obs : ℕ) : q → ℝ :=
  fun i => stprm_covariance df k_qq k_qo divisor residual num_obs i i

/-- Modelled from the spec: the "precomputed" regression model caches the
Cholesky factor of the divisor matrix (`divisor_matrix_cholesky`) together
with the conditioning data, instead of the divisor matrix itself. -/
structure PrecomputedSTPRM (o q : Type) where
  df : ℝ
  k_qq : Matrix q q ℝ
  k_qo : Matrix q o ℝ
  mean_q : q → ℝ
  residual : o → ℝ
  num_obs : ℕ
  divisor_matrix_cholesky : Matrix o o ℝ

/-- Modelled from the spec:
`StudentTProcessRegressionModel.precompute_regression_model` stores the
conditioning data together with the Cholesky factor `chol` computed from
the divisor matrix. -/
noncomputable def precompute_regression_model {o q : Type} (df : ℝ)
    (k_qq : Matrix q q ℝ) (k_qo : Matrix q o ℝ) (mean_q : q → ℝ)
    (residual : o → ℝ) (num_obs : ℕ) (chol : Matrix o o ℝ) :
    PrecomputedSTPRM o q :=
  ⟨df, k_qq, k_qo, mean_q, residual, num_obs, chol⟩

/-- Solving `(L * Lᵀ) x = b` by a forward solve with `L` followed by a
backward solve with `Lᵀ`, as done against a cached Cholesky factor. -/
noncomputable def chol_solve {o : Type} [Fintype o] [DecidableEq o]
    (L : Matrix o o ℝ) (b : o → ℝ) : o → ℝ :=
  (Lᵀ)⁻¹.mulVec (L⁻¹.mulVec b)

/-- Posterior mean of the precomputed model, evaluated through the cached
Cholesky factor. -/
noncomputable def PrecomputedSTPRM.mean {o q : Type} [Fintype o] [Fintype q]
    [DecidableEq o] (p : PrecomputedSTPRM o q) : q → ℝ :=
  p.mean_q + p.k_qo.mulVec (chol_solve p.divisor_matrix_cholesky p.residual)

/-- Student-t rescaling factor of the precomputed model. -/
noncomputable def PrecomputedSTPRM.scale {o q : Type} [Fintype o]
    [DecidableEq o] (p : PrecomputedSTPRM o q) : ℝ :=
  (p.df + p.residual ⬝ᵥ chol_solve p.divisor_matrix_cholesky p.residual - 2) /
    (p.df + p.num_obs - 2)

/-- Posterior covariance of the precomputed model, evaluated through the
cached Cholesky factor. -/
noncomputable def PrecomputedSTPRM.covariance {o q : Type} [Fintype o]
    [Fintype q] [DecidableEq o] (p : PrecomputedSTPRM o q) : Matrix q q ℝ :=
  p.scale • (p.k_qq -
    p.k_qo * (p.divisor_matrix_choleskyᵀ)⁻¹ *
      p.divisor_matrix_cholesky⁻¹ * p.k_qoᵀ)

/-- Posterior variance of the precomputed model. -/
noncomputable def PrecomputedSTPRM.variance {o q : Type} [Fintype o]
    [Fintype q] [DecidableEq o] (p : PrecomputedSTPRM o q) : q → ℝ :=
  fun i => p.covariance i i

/-- Model of `tf.nest.flatten(..., expand_composites=True)` on the
precomputed model: its tensor components in order. -/
def PrecomputedSTPRM.flatten {o q : Type} (p : PrecomputedSTPRM o q) :
    ℝ × Matrix q q ℝ × Matrix q o ℝ × (q → ℝ) × (o → ℝ) × ℕ ×
      Matrix o o ℝ :=
  (p.df, p.k_qq, p.k_qo, p.mean_q, p.residual, p.num_obs,
    p.divisor_matrix_cholesky)

/-- Model of `tf.nest.pack_sequence_as(...)`: rebuilding the precomputed
model from its flattened components, without recomputing any of them. -/
def pack_sequence_as {o q : Type}
    (t : ℝ × Matrix q q ℝ × Matrix q o ℝ × (q → ℝ) × (o → ℝ) × ℕ ×
      Matrix o o ℝ) : PrecomputedSTPRM o q :=
  ⟨t.1, t.2.1, t.2.2.1, t.2.2.2.1, t.2.2.2.2.1, t.2.2.2.2.2.1,
    t.2.2.2.2.2.2⟩

/-- Claim C8: when the cached factor is a Cholesky factor of the divisor
matrix, the precomputed regression model has the same mean, variance and
covariance as the directly constructed model, and flattening and re-packing
it preserves the cached divisor-matrix Cholesky factor. -/
theorem precompute_regression_model_spec {o q : Type} [Fintype o] [Fintype q]
    [DecidableEq o] (df : ℝ) (k_qq : Matrix q q ℝ) (k_qo : Matrix q o ℝ)
    (k_oo : Matrix o o ℝ) (observation_noise_variance : ℝ) (mean_q : q → ℝ)
    (residual : o → ℝ) (L : Matrix o o ℝ)
    (hchol : L * Lᵀ = divisor_matrix k_oo observation_noise_variance) :
    (precompute_regression_model df k_qq k_qo mean_q residual
        (Fintype.card o) L).mean =
      stprm_mean k_qo (divisor_matrix k_oo observation_noise_variance)
        mean_q residual ∧
    (precompute_regression_model df k_qq k_qo mean_q residual
        (Fintype.card o) L).covariance =
      stprm_covariance df k_qq k_qo
        (divisor_matrix k_oo observation_noise_variance) residual
        (Fintype.card o) ∧
    (precompute_regression_model df k_qq k_qo mean_q residual
        (Fintype.card o) L).variance =
      stprm_variance df k_qq k_qo
        (divisor_matrix k_oo observation_noise_variance) residual
        (Fintype.card o) ∧
    pack_sequence_as (PrecomputedSTPRM.flatten
        (precompute_regression_model df k_qq k_qo mean_q residual
          (Fintype.card o) L)) =
      precompute_regression_model df k_qq k_qo mean_q residual
        (Fintype.card o) L ∧
    (pack_sequence_as (PrecomputedSTPRM.flatten
        (precompute_regression_model df k_qq k_qo mean_q residual
          (Fintype.card o) L))).divisor_matrix_cholesky = L := by
  have hinv : (divisor_matrix k_oo observation_noise_variance)⁻¹ =
      (Lᵀ)⁻¹ * L⁻¹ := by
    rw [← hchol, Matrix.mul_inv_rev]
  have hsolve : chol_solve L residual =
      (divisor_matrix k_oo observation_noise_variance)⁻¹.mulVec residual := by
    rw [hinv, chol_solve, Matrix.mulVec_mulVec]
  refine ⟨?_, ?_, ?_, rfl, rfl⟩
  · show mean_q + k_qo.mulVec (chol_solve L residual) = _
    rw [hsolve]
    rfl
  · show PrecomputedSTPRM.scale _ •
      (k_qq - k_qo * (Lᵀ)⁻¹ * L⁻¹ * k_qoᵀ) = _
    have hscale : PrecomputedSTPRM.scale
        (precompute_regression_model df k_qq k_qo mean_q residual
          (Fintype.card o) L) =
        stprm_scale df (divisor_matrix k_oo observation_noise_variance)
          residual (Fintype.card o) := by
      show (df + residual ⬝ᵥ chol_solve L residual - 2) / _ = _
      rw [hsolve]
      rfl
    rw [hscale, stprm_covariance, hinv]
    simp [Matrix.mul_assoc]
  · funext i
    show PrecomputedSTPRM.covariance _ i i = _
    have hcov : PrecomputedSTPRM.covariance
        (precompute_regression_model df k_qq k_qo mean_q residual
          (Fintype.card o) L) =
        stprm_covariance df k_qq k_qo
          (divisor_matrix k_oo observation_noise_variance) residual
          (Fintype.card o) := by
      show PrecomputedSTPRM.scale _ •
        (k_qq - k_qo * (Lᵀ)⁻¹ * L⁻¹ * k_qoᵀ) = _
      have hscale : PrecomputedSTPRM.scale
          (precompute_regression_model df k_qq k_qo mean_q residual
            (Fintype.card o) L) =
          stprm_scale df (divisor_matrix k_oo observation_noise_variance)
            residual (Fintype.card o) := by
        show (df + residual ⬝ᵥ chol_solve L residual - 2) / _ = _
        rw [hsolve]
        rfl
      rw [hscale, stprm_covariance, hinv]
      simp [Matrix.mul_assoc]
    rw [hcov]
    rfl

/-- Witness for C8 with the identity Cholesky factor on a one-point space. -/
theorem precompute_regression_model_spec_witness :
    ((1 : Matrix (Fin 1) (Fin 1) ℝ) * (1 : Matrix (Fin 1) (Fin 1) ℝ)ᵀ =
      Tfp.divisor_matrix 0 1) ∧
    (Tfp.precompute_regression_model (3 : ℝ) (1 : Matrix (Fin 1) (Fin 1) ℝ)
        (1 : Matrix (Fin 1) (Fin 1) ℝ) (fun _ => 0) (fun _ => 1)
        (Fintype.card (Fin 1)) (1 : Matrix (Fin 1) (Fin 1) ℝ)).mean =
      Tfp.stprm_mean (1 : Matrix (Fin 1) (Fin 1) ℝ) (Tfp.divisor_matrix 0 1)
        (fun _ => 0) (fun _ => 1) := by
  have hchol : (1 : Matrix (Fin 1) (Fin 1) ℝ) *
      (1 : Matrix (Fin 1) (Fin 1) ℝ)ᵀ = Tfp.divisor_matrix 0 1 := by
    simp [Tfp.divisor_matrix]
  exact ⟨hchol, (Tfp.precompute_regression_model_spec 3 1 1 0 1 (fun _ => 0)
    (fun _ => 1) 1 hchol).1⟩

end Tfp

namespace Tfp

open Matrix Kronecker

/-- Modelled from the spec: the multivariate normal log density with
covariance `S` and mean `mu`, the common core of the Gaussian-process
log-probabilities of the probability library (real arithmetic stands in for
the library's floating point). -/
noncomputable def mvn_log_prob {ι : Type} [Fintype ι] [DecidableEq ι]
    (S : Matrix ι ι ℝ) (mu y : ι → ℝ) : ℝ :=
  -(1 / 2) * ((y - mu) ⬝ᵥ S⁻¹.mulVec (y - mu)) -
    (1 / 2) * Real.log ((2 * Real.pi) ^ Fintype.card ι * S.det)

/-- Modelled from the spec: `GaussianProcess(kernel, mean_fn,
observation_noise_variance).log_prob(y)` at fixed index points is the
multivariate normal log density with covariance given by the kernel matrix
over the index points plus the observation noise on the diagonal. -/
noncomputable def gp_log_prob {ι : Type} [Fintype ι] [DecidableEq ι]
    (k : Matrix ι ι ℝ) (observation_noise_variance : ℝ) (m y : ι → ℝ) :
    ℝ :=
  mvn_log_prob (k + observation_noise_variance • 1) m y

/-- Modelled from the spec: `MultiTaskGaussianProcess` with an
`Independent` multitask kernel over the task set `τ`: the covariance over
(index point, task) pairs is the Kronecker product of the single-task
covariance with the identity over tasks, observations are indexed by point
and task, and the per-task mean function stacks to the multitask mean. -/
noncomputable def mtgp_log_prob {ι τ : Type} [Fintype ι] [DecidableEq ι]
    [Fintype τ] [DecidableEq τ] (k : Matrix ι ι ℝ)
    (observation_noise_variance : ℝ) (m y : ι → τ → ℝ) : ℝ :=
  mvn_log_prob
    ((k + observation_noise_variance • 1) ⊗ₖ (1 : Matrix τ τ ℝ))
    (fun p => m p.1 p.2) (fun p => y p.1 p.2)

/-- The quadratic form of a task-identity Kronecker product splits into the
per-task quadratic forms. -/
theorem kron_one_quadratic {ι τ : Type} [Fintype ι] [Fintype τ]
    [DecidableEq τ] (A : Matrix ι ι ℝ) (z : ι × τ → ℝ) :
    z ⬝ᵥ (A ⊗ₖ (1 : Matrix τ τ ℝ)).mulVec z =
      ∑ t : τ, (fun i => z (i, t)) ⬝ᵥ A.mulVec (fun i => z (i, t)) := by
  simp only [Matrix.dotProduct, Matrix.mulVec, Matrix.kroneckerMap_apply,
    Matrix.one_apply, Fintype.sum_prod_type, mul_ite, mul_one, mul_zero,
    ite_mul, zero_mul, Finset.sum_ite_eq, Finset.mem_univ, if_true]
  rw [Finset.sum_comm]

end Tfp

namespace Tfp

open Matrix Kronecker

/-- Claim C7: the log-probability of a `MultiTaskGaussianProcess` with an
`Independent` multitask kernel equals the sum over tasks of the
log-probabilities the single-task `GaussianProcess` with the same base
kernel, mean and observation noise assigns to each task's column of the
observations (for a positive-definite single-task covariance, here: with
positive determinant). -/
theorem mtgp_log_prob_eq_sum {ι τ : Type} [Fintype ι] [DecidableEq ι]
    [Fintype τ] [DecidableEq τ] (k : Matrix ι ι ℝ)
    (observation_noise_variance : ℝ) (m y : ι → τ → ℝ)
    (hdet : 0 <
      (k + observation_noise_variance • (1 : Matrix ι ι ℝ)).det) :
    mtgp_log_prob k observation_noise_variance m y =
      ∑ t : τ, gp_log_prob k observation_noise_variance
        (fun i => m i t) (fun i => y i t) := by
  unfold mtgp_log_prob gp_log_prob mvn_log_prob
  set S := k + observation_noise_variance • (1 : Matrix ι ι ℝ) with hS
  have hone : (1 : Matrix τ τ ℝ)⁻¹ = 1 :=
    Matrix.inv_eq_left_inv (by rw [Matrix.one_mul])
  rw [Matrix.inv_kronecker, hone]
  have hq : ((fun p : ι × τ => y p.1 p.2) - fun p => m p.1 p.2) ⬝ᵥ
      (S⁻¹ ⊗ₖ (1 : Matrix τ τ ℝ)).mulVec
        ((fun p => y p.1 p.2) - fun p => m p.1 p.2) =
      ∑ t : τ, ((fun i => y i t) - fun i => m i t) ⬝ᵥ
        S⁻¹.mulVec ((fun i => y i t) - fun i => m i t) :=
    kron_one_quadratic S⁻¹ ((fun p => y p.1 p.2) - fun p => m p.1 p.2)
  rw [hq]
  have hdetk : ((S ⊗ₖ (1 : Matrix τ τ ℝ)).det) =
      S.det ^ Fintype.card τ := by
    rw [Matrix.det_kronecker, Matrix.det_one, one_pow, mul_one]
  have hlog : Real.log
      ((2 * Real.pi) ^ Fintype.card (ι × τ) * (S ⊗ₖ (1 : Matrix τ τ ℝ)).det) =
      (Fintype.card τ : ℝ) *
        Real.log ((2 * Real.pi) ^ Fintype.card ι * S.det) := by
    rw [hdetk, Fintype.card_prod, pow_mul, ← mul_pow, Real.log_pow]
  rw [hlog, Finset.sum_sub_distrib, ← Finset.mul_sum, Finset.sum_const,
    Finset.card_univ, nsmul_eq_mul]
  ring

end Tfp

/-- Witness for C7 on one index point and one task with the identity
covariance. -/
theorem Tfp.mtgp_log_prob_eq_sum_witness :
    (0 : ℝ) <
      ((0 : Matrix (Fin 1) (Fin 1) ℝ) +
        (1 : ℝ) • (1 : Matrix (Fin 1) (Fin 1) ℝ)).det ∧
    Tfp.mtgp_log_prob (ι := Fin 1) (τ := Fin 1)
        (0 : Matrix (Fin 1) (Fin 1) ℝ) 1 (fun _ _ => 0) (fun _ _ => 1) =
      ∑ t : Fin 1, Tfp.gp_log_prob (0 : Matrix (Fin 1) (Fin 1) ℝ) 1
        (fun _ => 0) (fun _ => 1) :=
  ⟨by simp, Tfp.mtgp_log_prob_eq_sum 0 1 (fun _ _ => 0) (fun _ _ => 1)
    (by simp)⟩
